import Mathlib

/-!
Verification of the lead-lifecycle pipeline of the linkedin_outreach_helper
repository against its natural-language specification.

The JavaScript source is shallowly embedded: each JS function that the
claims mention is translated into an executable Lean definition over an
explicit state (lists of stored profile records, call counters), with
external I/O (the Heyreach HTTP API, the LLM router) modelled as explicit
outcome parameters.  File-per-record directories (`data/qualified`,
`data/disqualified`) are modelled as lists of records in write order.
-/

namespace Outreach

/-! ## Characters used when scanning classifier responses

The JS code scans response strings for brace-delimited JSON payloads; we
name the delimiter characters by code point. -/

def lbrace : Char := Char.ofNat 123

def rbrace : Char := Char.ofNat 125

def dquote : Char := Char.ofNat 34

/-! ## Quota / pacing controller (src/stats.js)

`canViewMoreProfiles`, `getRemainingViews` and `incrementProfileViews`
read and write `stats.dailyStats[today].profilesViewed` against the
configured ceiling `config.limits.maxProfileViewsPerDay`.  The stored
daily counter is a natural number (it starts at 0 and is only ever
incremented); the ceiling is the configured positive integer. -/

/-- Embeds `canViewMoreProfiles` from src/stats.js:
`todayStats.profilesViewed < maxViews`. -/
def canViewMoreProfiles (maxViews viewed : Nat) : Bool :=
  viewed < maxViews

/-- Embeds `getRemainingViews` from src/stats.js:
`Math.max(0, maxViews - todayStats.profilesViewed)` (JS subtraction over
numbers, clamped at 0). -/
def getRemainingViews (maxViews viewed : Nat) : Int :=
  max 0 ((maxViews : Int) - (viewed : Int))

/-- Embeds the counter update of `incrementProfileViews` from
src/stats.js: `stats.dailyStats[today].profilesViewed++`. -/
def incrementProfileViews (viewed : Nat) : Nat :=
  viewed + 1

/-- A sequence of `n` acquisition attempts, each gated by
`canViewMoreProfiles` before it calls `incrementProfileViews` — the usage
pattern of the scraper loop. -/
def gatedViews (maxViews : Nat) : Nat → Nat → Nat
  | 0, viewed => viewed
  | n + 1, viewed =>
    if canViewMoreProfiles maxViews viewed then
      gatedViews maxViews n (incrementProfileViews viewed)
    else
      viewed

theorem gatedViews_from_zero (maxViews n : Nat) :
    gatedViews maxViews n 0 = min n maxViews := by
  suffices h : ∀ n viewed, viewed ≤ maxViews →
      gatedViews maxViews n viewed = min (viewed + n) maxViews by
    simpa using h n 0 (Nat.zero_le _)
  intro n
  induction n with
  | zero => intro viewed hv; simp [gatedViews, Nat.min_eq_left hv]
  | succ n ih =>
    intro viewed hv
    by_cases hlt : viewed < maxViews
    · rw [gatedViews, if_pos (by simpa [canViewMoreProfiles] using hlt),
        ih (incrementProfileViews viewed) hlt]
      simp [incrementProfileViews]
      omega
    · rw [gatedViews, if_neg (by simpa [canViewMoreProfiles] using hlt)]
      have : viewed = maxViews := le_antisymm hv (not_lt.mp hlt)
      simp [this]

/-- C8: for every configured daily ceiling and stored daily count,
`canViewMoreProfiles` is true iff the count is below the ceiling,
`getRemainingViews` is the ceiling minus the count floored at 0, and a
sequence of `incrementProfileViews` calls gated by `canViewMoreProfiles`
never pushes the count past the ceiling — the gate turns false exactly
when the count reaches the ceiling. -/
theorem quota_monotonicity (maxViews viewed n : Nat) :
    (canViewMoreProfiles maxViews viewed = true ↔ viewed < maxViews) ∧
    getRemainingViews maxViews viewed = ((maxViews - viewed : Nat) : Int) ∧
    gatedViews maxViews n 0 ≤ maxViews ∧
    (canViewMoreProfiles maxViews (gatedViews maxViews n 0) = false ↔
      gatedViews maxViews n 0 = maxViews) := by
  refine ⟨by simp [canViewMoreProfiles], ?_, ?_, ?_⟩
  · simp [getRemainingViews]
    omega
  · rw [gatedViews_from_zero]; exact Nat.min_le_right _ _
  · rw [gatedViews_from_zero]
    constructor
    · intro h
      have := Nat.min_le_right n maxViews
      simp [canViewMoreProfiles] at h
      omega
    · intro h; simp [canViewMoreProfiles, h]

/-! ## Stored record model

A prospect file in `data/qualified/` (or `data/disqualified/`) is a JSON
object spread from the CSV profile plus fields added by the pipeline
stages.  Absent JSON fields are modelled with `Option`/`Bool` defaults
(JS reads an absent field as `undefined`, which is falsy). -/

/-- The per-analysis payload stored under `qualification.analysis` by
`saveQualification` (batch-qualify.js). -/
structure QualificationAnalysis where
  qualified : Bool
  score : Int
  reasoning : String
  strengths : List String
  concerns : List String
  recommendedApproach : String
deriving DecidableEq

/-- The `qualification` object written by `saveQualification`. -/
structure Qualification where
  isQualified : Bool
  analysis : QualificationAnalysis
  qualifiedAt : Option String := none
  disqualifiedAt : Option String := none
deriving DecidableEq

/-- The `heyreach` object written by `saveQualification`
(batch-qualify.js): on success `sent/sentAt/heyreachId/listId`, on
failure `sent/error/attemptedAt`. -/
structure HeyreachRecord where
  sent : Bool
  sentAt : Option String := none
  heyreachId : Option (List Char) := none
  listId : Option String := none
  error : Option String := none
  attemptedAt : Option String := none
deriving DecidableEq

/-- A CSV-loaded raw profile (`loadAllProfiles`). -/
structure Profile where
  name : String
  url : List Char
  title : String := ""
  company : String := ""
  location : String := ""
  about : String := ""
deriving DecidableEq

/-- A stored prospect JSON file. -/
structure Prospect where
  name : String
  url : List Char
  title : String := ""
  company : String := ""
  location : String := ""
  about : String := ""
  qualification : Option Qualification := none
  heyreach : Option HeyreachRecord := none
  connectionAccepted : Bool := false
  connectionAcceptedAt : Option String := none
  heyreachLeadId : Option Nat := none
  outreachSent : Option Bool := none
  outreachApproved : Bool := false
  outreachMessage : Option String := none
  messageSent : Option Bool := none
  messageSentAt : Option String := none
  messageSentResponse : Option String := none
  messageError : Option String := none
  messageAttemptedAt : Option String := none
deriving DecidableEq

/-! ## Acceptance tracker (src/acceptance-tracker.js) -/

/-- A lead as returned by the Heyreach campaign listing.  The profile
URL can sit in `linkedInUserProfile.profileUrl` or in `profile_url`;
absent fields are `none`. -/
structure Lead where
  id : Nat
  leadConnectionStatus : String := ""
  linkedInProfileUrl : Option (List Char) := none
  profile_url : Option (List Char) := none
deriving DecidableEq

/-- JS `a || b` over optional strings: an absent or empty string falls
through to the alternative. -/
def jsOrUrl : Option (List Char) → Option (List Char) → Option (List Char)
  | some u, b => if u.isEmpty then b else some u
  | none, b => b

/-- Embeds `getLinkedInUrl` from src/acceptance-tracker.js:
`profile.profileUrl || lead.profile_url || null`. -/
def getLinkedInUrl (lead : Lead) : Option (List Char) :=
  jsOrUrl lead.linkedInProfileUrl (jsOrUrl lead.profile_url none)

/-- Embeds `isConnectionAccepted` from src/acceptance-tracker.js:
`(lead.leadConnectionStatus || '') === 'ConnectionAccepted'`. -/
def isConnectionAccepted (lead : Lead) : Bool :=
  lead.leadConnectionStatus = "ConnectionAccepted"

/-- Embeds `normalizeLinkedInUrl` from src/acceptance-tracker.js:
`url.replace(/\/$/, '')`, i.e. drop one trailing slash if present. -/
def normalizeLinkedInUrl (url : List Char) : List Char :=
  if url.getLast? = some '/' then url.dropLast else url

/-- The acceptance fields written onto a matched profile by
`updateProfilesWithAcceptances`. -/
def markAccepted (p : Prospect) (now : String) (leadId : Nat) : Prospect :=
  { p with connectionAccepted := true,
           connectionAcceptedAt := some now,
           heyreachLeadId := some leadId,
           outreachSent := some false }

/-- Outcome of processing one accepted lead against the profile list. -/
inductive LeadOutcome
  | noMatch
  | alreadyTracked
  | updated
deriving DecidableEq

/-- One iteration of the matching loop in
`updateProfilesWithAcceptances`: `profiles.find` locates the first
profile whose normalized URL equals the lead's normalized URL; if it is
already marked accepted it is skipped, otherwise it is updated in
place. -/
def updateOne (nu : List Char) (now : String) (leadId : Nat) :
    List Prospect → List Prospect × LeadOutcome
  | [] => ([], .noMatch)
  | p :: ps =>
    if normalizeLinkedInUrl p.url = nu then
      if p.connectionAccepted then (p :: ps, .alreadyTracked)
      else (markAccepted p now leadId :: ps, .updated)
    else
      let r := updateOne nu now leadId ps
      (p :: r.1, r.2)

/-- Embeds the lead loop of `updateProfilesWithAcceptances`
(src/acceptance-tracker.js): processes accepted leads in order against
the profile store, returning the updated store and `updatedCount`. -/
def updateProfilesWithAcceptances (now : String) :
    List Lead → List Prospect → List Prospect × Nat
  | [], profiles => (profiles, 0)
  | lead :: rest, profiles =>
    match getLinkedInUrl lead with
    | none => updateProfilesWithAcceptances now rest profiles
    | some url =>
      let r := updateOne (normalizeLinkedInUrl url) now lead.id profiles
      let rec' := updateProfilesWithAcceptances now rest r.1
      (rec'.1, (if r.2 = .updated then 1 else 0) + rec'.2)

/-- The summary object produced by `checkAcceptedConnections`. -/
structure ReconcileStats where
  totalLeads : Nat
  acceptedLeads : Nat
  updatedProfiles : Nat
deriving DecidableEq

/-- Embeds `checkAcceptedConnections` (src/acceptance-tracker.js):
filter the campaign leads to accepted ones, short-circuit when none,
otherwise run the matching loop. -/
def checkAcceptedConnections (now : String) (leads : List Lead)
    (profiles : List Prospect) : List Prospect × ReconcileStats :=
  let accepted := leads.filter isConnectionAccepted
  if accepted.isEmpty then
    (profiles, ⟨leads.length, 0, 0⟩)
  else
    let r := updateProfilesWithAcceptances now accepted profiles
    (r.1, ⟨leads.length, accepted.length, r.2⟩)

/-- The `Already tracked` figure printed by `checkAcceptedConnections`:
`acceptedLeads.length - updatedCount`. -/
def alreadyTrackedOf (s : ReconcileStats) : Nat :=
  s.acceptedLeads - s.updatedProfiles

/-- `profiles.find` by normalized URL, as used in the matching loop. -/
def firstMatch (nu : List Char) (ps : List Prospect) : Option Prospect :=
  ps.find? (fun p => normalizeLinkedInUrl p.url = nu)

/-- `markAccepted` leaves the URL unchanged. -/
theorem markAccepted_url (p : Prospect) (now : String) (leadId : Nat) :
    (markAccepted p now leadId).url = p.url := rfl

/-- `markAccepted` marks the profile accepted. -/
theorem markAccepted_connectionAccepted (p : Prospect) (now : String) (leadId : Nat) :
    (markAccepted p now leadId).connectionAccepted = true := rfl

theorem firstMatch_nil (nu : List Char) : firstMatch nu [] = none := rfl

theorem firstMatch_cons (nu : List Char) (p : Prospect) (ps : List Prospect) :
    firstMatch nu (p :: ps) =
      if normalizeLinkedInUrl p.url = nu then some p else firstMatch nu ps := by
  by_cases h : normalizeLinkedInUrl p.url = nu
  · simp [firstMatch, List.find?_cons_of_pos, h]
  · simp [firstMatch, List.find?_cons_of_neg, h]

/-- When no profile matches, `updateOne` is the identity and reports
`noMatch`. -/
theorem updateOne_of_firstMatch_none {nu : List Char} {now : String} {leadId : Nat}
    {ps : List Prospect} (h : firstMatch nu ps = none) :
    updateOne nu now leadId ps = (ps, .noMatch) := by
  induction ps with
  | nil => rfl
  | cons p ps ih =>
    rw [firstMatch_cons] at h
    by_cases hp : normalizeLinkedInUrl p.url = nu
    · simp [hp] at h
    · rw [if_neg hp] at h
      simp [updateOne, hp, ih h]

/-- When the first matching profile is already accepted, `updateOne` is
the identity and reports `alreadyTracked`. -/
theorem updateOne_of_firstMatch_accepted {nu : List Char} {now : String} {leadId : Nat}
    {ps : List Prospect} {p : Prospect} (h : firstMatch nu ps = some p)
    (ha : p.connectionAccepted = true) :
    updateOne nu now leadId ps = (ps, .alreadyTracked) := by
  induction ps with
  | nil => simp [firstMatch_nil] at h
  | cons q ps ih =>
    rw [firstMatch_cons] at h
    by_cases hq : normalizeLinkedInUrl q.url = nu
    · rw [if_pos hq] at h
      cases h
      simp [updateOne, hq, ha]
    · rw [if_neg hq] at h
      simp [updateOne, hq, ih h]

/-- When the first matching profile is not yet accepted, `updateOne`
reports `updated`. -/
theorem updateOne_of_firstMatch_fresh (now : String) (leadId : Nat)
    {nu : List Char} {ps : List Prospect} {p : Prospect}
    (h : firstMatch nu ps = some p)
    (ha : p.connectionAccepted = false) :
    (updateOne nu now leadId ps).2 = .updated := by
  induction ps with
  | nil => simp [firstMatch_nil] at h
  | cons q ps ih =>
    rw [firstMatch_cons] at h
    by_cases hq : normalizeLinkedInUrl q.url = nu
    · rw [if_pos hq] at h
      cases h
      simp [updateOne, hq, ha]
    · rw [if_neg hq] at h
      simp [updateOne, hq, ih h]

/-- `updateOne` for one URL does not disturb the first match for any
other URL (it changes no URLs, and the profile it rewrites does not
match the other URL). -/
theorem firstMatch_updateOne_ne {nu nu' : List Char} (hne : nu' ≠ nu)
    (now : String) (leadId : Nat) (ps : List Prospect) :
    firstMatch nu' (updateOne nu now leadId ps).1 = firstMatch nu' ps := by
  induction ps with
  | nil => rfl
  | cons p ps ih =>
    by_cases hp : normalizeLinkedInUrl p.url = nu
    · have hp' : normalizeLinkedInUrl p.url ≠ nu' := by
        rw [hp]; exact fun h => hne h.symm
      by_cases ha : p.connectionAccepted
      · simp [updateOne, hp, ha]
      · simp [updateOne, hp, ha, firstMatch_cons, markAccepted_url, hp', Ne.symm hne]
    · simp [updateOne, hp, firstMatch_cons, ih]

/-- Every profile that `firstMatch` can return for `nu` is accepted. -/
def matchedAccepted (nu : List Char) (ps : List Prospect) : Prop :=
  ∀ p, firstMatch nu ps = some p → p.connectionAccepted = true

/-- After `updateOne` for `nu`, the first match for `nu` (if any) is
accepted. -/
theorem matchedAccepted_updateOne_self (nu : List Char) (now : String)
    (leadId : Nat) (ps : List Prospect) :
    matchedAccepted nu (updateOne nu now leadId ps).1 := by
  induction ps with
  | nil => intro p h; simp [updateOne, firstMatch_nil] at h
  | cons q ps ih =>
    intro p h
    by_cases hq : normalizeLinkedInUrl q.url = nu
    · by_cases ha : q.connectionAccepted
      · simp [updateOne, hq, ha, firstMatch_cons] at h
        cases h; exact ha
      · simp [updateOne, hq, ha, firstMatch_cons, markAccepted_url] at h
        cases h; exact markAccepted_connectionAccepted _ _ _
    · simp [updateOne, hq, firstMatch_cons] at h
      exact ih p h

/-- `updateOne` preserves `matchedAccepted` for every URL. -/
theorem matchedAccepted_updateOne {nu' : List Char} (nu : List Char)
    (now : String) (leadId : Nat) {ps : List Prospect}
    (h : matchedAccepted nu' ps) :
    matchedAccepted nu' (updateOne nu now leadId ps).1 := by
  by_cases hne : nu' = nu
  · subst hne
    cases hm : firstMatch nu' ps with
    | none => rw [updateOne_of_firstMatch_none hm]; exact h
    | some p =>
      by_cases ha : p.connectionAccepted
      · rw [updateOne_of_firstMatch_accepted hm ha]; exact h
      · exact matchedAccepted_updateOne_self nu' now leadId ps
  · intro p hp
    rw [firstMatch_updateOne_ne hne] at hp
    exact h p hp

/-- The lead loop preserves `matchedAccepted` for every URL. -/
theorem matchedAccepted_updateProfiles (now : String) (leads : List Lead) :
    ∀ (ps : List Prospect) (nu : List Char), matchedAccepted nu ps →
      matchedAccepted nu (updateProfilesWithAcceptances now leads ps).1 := by
  induction leads with
  | nil => intro ps nu h; exact h
  | cons lead rest ih =>
    intro ps nu h
    cases hurl : getLinkedInUrl lead with
    | none => simpa [updateProfilesWithAcceptances, hurl] using ih ps nu h
    | some u =>
      simpa [updateProfilesWithAcceptances, hurl] using
        ih _ nu (matchedAccepted_updateOne _ now lead.id h)

/-- When every lead's first match is already accepted, the lead loop
changes nothing and counts zero updates. -/
theorem updateProfiles_noop (now : String) :
    ∀ (leads : List Lead) (store : List Prospect),
      (∀ lead ∈ leads, ∀ u, getLinkedInUrl lead = some u →
        matchedAccepted (normalizeLinkedInUrl u) store) →
      updateProfilesWithAcceptances now leads store = (store, 0) := by
  intro leads
  induction leads with
  | nil => intro store _; rfl
  | cons lead rest ih =>
    intro store h
    cases hurl : getLinkedInUrl lead with
    | none =>
      simp [updateProfilesWithAcceptances, hurl]
      exact ih store fun l hl u hu => h l (List.mem_cons_of_mem _ hl) u hu
    | some u =>
      have hma := h lead (List.mem_cons_self _ _) u hurl
      have hone : updateOne (normalizeLinkedInUrl u) now lead.id store =
          (store, LeadOutcome.noMatch) ∨
          updateOne (normalizeLinkedInUrl u) now lead.id store =
          (store, LeadOutcome.alreadyTracked) := by
        cases hm : firstMatch (normalizeLinkedInUrl u) store with
        | none => exact Or.inl (updateOne_of_firstMatch_none hm)
        | some p =>
          exact Or.inr (updateOne_of_firstMatch_accepted hm (hma p hm))
      have hrest := ih store fun l hl u' hu' => h l (List.mem_cons_of_mem _ hl) u' hu'
      cases hone with
      | inl h1 => simp [updateProfilesWithAcceptances, hurl, h1, hrest]
      | inr h1 => simp [updateProfilesWithAcceptances, hurl, h1, hrest]

/-- After one pass of the lead loop, every lead that carries a URL has
its first match (if any) marked accepted in the resulting store. -/
theorem updateProfiles_matchedAccepted (now : String) :
    ∀ (leads : List Lead) (store : List Prospect),
      ∀ lead ∈ leads, ∀ u, getLinkedInUrl lead = some u →
        matchedAccepted (normalizeLinkedInUrl u)
          (updateProfilesWithAcceptances now leads store).1 := by
  intro leads
  induction leads with
  | nil => intro store lead hl; simp at hl
  | cons lead rest ih =>
    intro store l hl u hu
    rcases List.mem_cons.mp hl with rfl | hmem
    · cases hurl : getLinkedInUrl l with
      | none => rw [hurl] at hu; cases hu
      | some u' =>
        rw [hurl] at hu
        cases hu
        simp only [updateProfilesWithAcceptances, hurl]
        exact matchedAccepted_updateProfiles now rest _ _
          (matchedAccepted_updateOne_self _ now l.id store)
    · cases hurl : getLinkedInUrl lead with
      | none =>
        simpa [updateProfilesWithAcceptances, hurl] using ih store l hmem u hu
      | some u' =>
        simpa [updateProfilesWithAcceptances, hurl] using ih _ l hmem u hu

/-- The normalized identity key of a lead, used to state distinctness. -/
def leadNormUrl (lead : Lead) : Option (List Char) :=
  (getLinkedInUrl lead).map normalizeLinkedInUrl

/-- When every lead carries a URL, those URLs are pairwise distinct
after normalization, and each has a not-yet-accepted first match, the
lead loop updates exactly one profile per lead. -/
theorem updateProfiles_count (now : String) :
    ∀ (leads : List Lead) (store : List Prospect),
      (∀ lead ∈ leads, (getLinkedInUrl lead).isSome) →
      (∀ lead ∈ leads, ∀ u, getLinkedInUrl lead = some u →
        ∃ p, firstMatch (normalizeLinkedInUrl u) store = some p ∧
          p.connectionAccepted = false) →
      (leads.map leadNormUrl).Pairwise (· ≠ ·) →
      (updateProfilesWithAcceptances now leads store).2 = leads.length := by
  intro leads
  induction leads with
  | nil => intro store _ _ _; rfl
  | cons lead rest ih =>
    intro store hsome hfresh hdist
    cases hurl : getLinkedInUrl lead with
    | none =>
      have := hsome lead (List.mem_cons_self _ _)
      rw [hurl] at this; cases this
    | some u =>
      obtain ⟨p, hm, hp⟩ := hfresh lead (List.mem_cons_self _ _) u hurl
      have hupd := updateOne_of_firstMatch_fresh now lead.id hm hp
      rw [List.map_cons, List.pairwise_cons] at hdist
      have hrest := ih (updateOne (normalizeLinkedInUrl u) now lead.id store).1
        (fun l hl => hsome l (List.mem_cons_of_mem _ hl))
        (fun l hl u' hu' => by
          obtain ⟨p', hm', hp'⟩ := hfresh l (List.mem_cons_of_mem _ hl) u' hu'
          refine ⟨p', ?_, hp'⟩
          rw [firstMatch_updateOne_ne ?hne]
          · exact hm'
          · intro heq
            have h1 : leadNormUrl lead ≠ leadNormUrl l :=
              hdist.1 (leadNormUrl l) (List.mem_map_of_mem _ hl)
            apply h1
            simp [leadNormUrl, hurl, hu', heq])
        hdist.2
      simp [updateProfilesWithAcceptances, hurl, hupd, hrest]
      omega

/-- C6: reconciliation is idempotent.  For a fixture of accepted leads
that each carry a URL, have pairwise-distinct normalized URLs, and each
match a not-yet-accepted stored profile, the first
`checkAcceptedConnections` run updates exactly `N = leads.length`
profiles, and a second run against the same campaign updates none,
reports `alreadyTracked = N`, and leaves the store unchanged. -/
theorem reconcile_idempotent (now now2 : String) (leads : List Lead)
    (store : List Prospect)
    (hacc : ∀ lead ∈ leads, isConnectionAccepted lead = true)
    (hsome : ∀ lead ∈ leads, (getLinkedInUrl lead).isSome)
    (hfresh : ∀ lead ∈ leads, ∀ u, getLinkedInUrl lead = some u →
      (firstMatch (normalizeLinkedInUrl u) store).map
        (fun p => p.connectionAccepted) = some false)
    (hdist : (leads.map leadNormUrl).Pairwise (· ≠ ·)) :
    (checkAcceptedConnections now leads store).2.updatedProfiles = leads.length ∧
    (checkAcceptedConnections now2 leads
      (checkAcceptedConnections now leads store).1).2.updatedProfiles = 0 ∧
    alreadyTrackedOf (checkAcceptedConnections now2 leads
      (checkAcceptedConnections now leads store).1).2 = leads.length ∧
    (checkAcceptedConnections now2 leads
      (checkAcceptedConnections now leads store).1).1 =
      (checkAcceptedConnections now leads store).1 := by
  have hfilter : leads.filter isConnectionAccepted = leads :=
    List.filter_eq_self.mpr hacc
  have hfresh' : ∀ lead ∈ leads, ∀ u, getLinkedInUrl lead = some u →
      ∃ p, firstMatch (normalizeLinkedInUrl u) store = some p ∧
        p.connectionAccepted = false := by
    intro l hl u hu
    have h := hfresh l hl u hu
    cases hm : firstMatch (normalizeLinkedInUrl u) store with
    | none => rw [hm] at h; cases h
    | some p =>
      rw [hm] at h
      simp only [Option.map_some', Option.some_inj] at h
      exact ⟨p, rfl, h⟩
  cases hL : leads.isEmpty with
  | true =>
    have : leads = [] := List.isEmpty_iff.mp hL
    subst this
    simp [checkAcceptedConnections, alreadyTrackedOf]
  | false =>
    have hcount := updateProfiles_count now leads store hsome hfresh' hdist
    have hma : ∀ lead ∈ leads, ∀ u, getLinkedInUrl lead = some u →
        matchedAccepted (normalizeLinkedInUrl u)
          (updateProfilesWithAcceptances now leads store).1 :=
      fun l hl u hu => updateProfiles_matchedAccepted now leads store l hl u hu
    have hnoop := updateProfiles_noop now2 leads
      (updateProfilesWithAcceptances now leads store).1 hma
    simp only [checkAcceptedConnections, hfilter, hL, Bool.false_eq_true,
      if_false, hnoop, hcount, alreadyTrackedOf]
    simp [hnoop]

/-! ### Concrete reconciliation fixtures -/

/-- Fixture: stored qualified profile with no trailing slash. -/
def prospectA : Prospect :=
  { name := "Ada", url := "https://x.com/in/a".toList }

/-- Fixture: stored qualified profile with a trailing slash. -/
def prospectB : Prospect :=
  { name := "Bob", url := "https://x.com/in/b/".toList }

/-- Fixture: accepted lead whose URL carries a trailing slash. -/
def leadA : Lead :=
  { id := 1, leadConnectionStatus := "ConnectionAccepted",
    linkedInProfileUrl := some "https://x.com/in/a/".toList }

/-- Fixture: accepted lead whose URL lacks the trailing slash, carried
in the fallback `profile_url` field. -/
def leadB : Lead :=
  { id := 2, leadConnectionStatus := "ConnectionAccepted",
    profile_url := some "https://x.com/in/b".toList }

theorem reconcile_idempotent_witness :
    (checkAcceptedConnections "t1" [leadA, leadB]
      [prospectA, prospectB]).2.updatedProfiles = 2 ∧
    (checkAcceptedConnections "t2" [leadA, leadB]
      (checkAcceptedConnections "t1" [leadA, leadB]
        [prospectA, prospectB]).1).2.updatedProfiles = 0 ∧
    alreadyTrackedOf (checkAcceptedConnections "t2" [leadA, leadB]
      (checkAcceptedConnections "t1" [leadA, leadB]
        [prospectA, prospectB]).1).2 = 2 ∧
    (checkAcceptedConnections "t2" [leadA, leadB]
      (checkAcceptedConnections "t1" [leadA, leadB]
        [prospectA, prospectB]).1).1 =
      (checkAcceptedConnections "t1" [leadA, leadB]
        [prospectA, prospectB]).1 :=
  reconcile_idempotent "t1" "t2" [leadA, leadB] [prospectA, prospectB]
    (by intro l hl
        simp only [List.mem_cons, List.not_mem_nil, or_false] at hl
        rcases hl with rfl | rfl <;> decide)
    (by intro l hl
        simp only [List.mem_cons, List.not_mem_nil, or_false] at hl
        rcases hl with rfl | rfl <;> decide)
    (by intro l hl u hu
        simp only [List.mem_cons, List.not_mem_nil, or_false] at hl
        rcases hl with rfl | rfl
        · have hu' : u = "https://x.com/in/a/".toList := by
            simpa [leadA, getLinkedInUrl, jsOrUrl] using hu.symm
          subst hu'; decide
        · have hu' : u = "https://x.com/in/b".toList := by
            simpa [leadB, getLinkedInUrl, jsOrUrl] using hu.symm
          subst hu'; decide)
    (by decide)

/-! ### C7: identity normalization -/

/-- Fixture: stored profile whose URL has a lower-case host. -/
def prospectCase : Prospect :=
  { name := "Cara", url := "https://x.com/in/c".toList }

/-- Fixture: accepted lead whose URL differs from `prospectCase` only in
the letter-case of the host. -/
def leadCase : Lead :=
  { id := 3, leadConnectionStatus := "ConnectionAccepted",
    linkedInProfileUrl := some "https://X.com/in/c".toList }

/-- C7 counterexample: the claim says URLs differing only in scheme/host
letter-case match as the same identity after normalization.  In the
code, `normalizeLinkedInUrl` only strips a trailing slash, so the pair
`https://X.com/in/c` / `https://x.com/in/c` does not match: the
reconciliation loop updates nothing. -/
theorem normalization_case_counterexample :
    normalizeLinkedInUrl "https://X.com/in/c".toList ≠
      normalizeLinkedInUrl prospectCase.url ∧
    (updateProfilesWithAcceptances "t" [leadCase] [prospectCase]).2 = 0 ∧
    (updateProfilesWithAcceptances "t" [leadCase] [prospectCase]).1 =
      [prospectCase] := by
  refine ⟨by decide, by decide, by decide⟩

/-- Fixture for the slash-variant pair of the spec:
a lead URL `https://x.com/in/s/` against a stored `https://x.com/in/s`. -/
def prospectSlash : Prospect :=
  { name := "Sam", url := "https://x.com/in/s".toList }

/-- Fixture lead for `prospectSlash`, URL with trailing slash. -/
def leadSlash : Lead :=
  { id := 4, leadConnectionStatus := "ConnectionAccepted",
    linkedInProfileUrl := some "https://x.com/in/s/".toList }

/-- C7 amended: reconciliation normalizes URLs by stripping a single
trailing slash only (no scheme/host lowercasing).  URLs that differ only
in a trailing slash normalize identically and match as the same
identity in the reconciliation loop; letter-case variants do not (see
the counterexample). -/
theorem normalize_trailing_slash_equiv (u : List Char)
    (h : u.getLast? ≠ some '/') :
    normalizeLinkedInUrl (u ++ ['/']) = normalizeLinkedInUrl u ∧
    normalizeLinkedInUrl u = u ∧
    (updateProfilesWithAcceptances "t" [leadSlash] [prospectSlash]).2 = 1 ∧
    (updateProfilesWithAcceptances "t" [leadSlash]
      [prospectSlash]).1.map (fun p => p.connectionAccepted) = [true] := by
  refine ⟨?_, ?_, by decide, by decide⟩
  · have h1 : (u ++ ['/']).getLast? = some '/' := List.getLast?_concat _
    have h2 : (u ++ ['/']).dropLast = u := List.dropLast_concat
    simp [normalizeLinkedInUrl, h1, h2, h]
  · simp [normalizeLinkedInUrl, h]

theorem normalize_trailing_slash_equiv_witness :
    normalizeLinkedInUrl ("https://x.com/in/s".toList ++ ['/']) =
      normalizeLinkedInUrl "https://x.com/in/s".toList ∧
    normalizeLinkedInUrl "https://x.com/in/s".toList =
      "https://x.com/in/s".toList ∧
    (updateProfilesWithAcceptances "t" [leadSlash] [prospectSlash]).2 = 1 ∧
    (updateProfilesWithAcceptances "t" [leadSlash]
      [prospectSlash]).1.map (fun p => p.connectionAccepted) = [true] :=
  normalize_trailing_slash_equiv "https://x.com/in/s".toList (by decide)

/-! ## Campaign submission (src/heyreach-client.js and batch-qualify.js)

`addProspectToCampaign` makes one HTTP call to the Heyreach API per
invocation; the HTTP exchange itself is external and is modelled by an
`ApiOutcome` parameter.  The returned `Nat` counts the fetches actually
performed (0 when a precondition throws before the fetch, 1 once the
fetch happens, whether it succeeds or not). -/

/-- The `config.heyreach` object (apiKey/listId, JS-truthy when
non-empty). -/
structure HeyreachConfig where
  apiKey : String := ""
  listId : String := ""
deriving DecidableEq

/-- The configuration slice read by batch-qualify.js. -/
structure Config where
  minScore : Int
  heyreach : Option HeyreachConfig := none
deriving DecidableEq

/-- Result of the external AddLeadsToListV2 HTTP exchange. -/
inductive ApiOutcome
  | success (heyreachId : List Char)
  | failure (message : String)
deriving DecidableEq

/-- The object `addProspectToCampaign` resolves with on success. -/
structure HeyreachResult where
  success : Bool
  heyreachId : List Char
deriving DecidableEq

/-- Embeds `addProspectToCampaign` (src/heyreach-client.js): validate
configuration and the profile URL, then perform exactly one HTTP call;
a non-2xx response or network error is rethrown as `Except.error`. -/
def addProspectToCampaign (cfg : Config) (profile : Profile)
    (outcome : ApiOutcome) : Except String HeyreachResult × Nat :=
  match cfg.heyreach with
  | none => (.error "Heyreach configuration not found in config.json", 0)
  | some hc =>
    if hc.apiKey = "" ∨ hc.listId = "" then
      (.error "Heyreach API key and list ID are required", 0)
    else if profile.url.isEmpty then
      (.error "LinkedIn profile URL is required", 0)
    else
      match outcome with
      | .success heyreachId => (.ok ⟨true, heyreachId⟩, 1)
      | .failure message => (.error message, 1)

/-- The qualification payload passed to `saveQualification`. -/
structure QualificationData where
  qualified : Bool
  score : Int
  reasoning : String := ""
  strengths : List String := []
  concerns : List String := []
  recommendedApproach : String := ""
deriving DecidableEq

/-- The prospect object built by the qualified branch of
`saveQualification` (batch-qualify.js), before the Heyreach attempt. -/
def qualifiedProspect (profile : Profile) (qd : QualificationData)
    (now : String) : Prospect :=
  { name := profile.name, url := profile.url, title := profile.title,
    company := profile.company, location := profile.location,
    about := profile.about,
    qualification := some
      { isQualified := true,
        analysis := ⟨qd.qualified, qd.score, qd.reasoning, qd.strengths,
          qd.concerns, qd.recommendedApproach⟩,
        qualifiedAt := some now } }

/-- The prospect object built by the disqualified branch of
`saveQualification`. -/
def disqualifiedProspect (profile : Profile) (qd : QualificationData)
    (now : String) : Prospect :=
  { name := profile.name, url := profile.url, title := profile.title,
    company := profile.company, location := profile.location,
    about := profile.about,
    qualification := some
      { isQualified := false,
        analysis := ⟨qd.qualified, qd.score, qd.reasoning, qd.strengths,
          qd.concerns, qd.recommendedApproach⟩,
        disqualifiedAt := some now } }

/-- What `saveQualification` returns / leaves behind: the two record
directories in write order, the cumulative count of external API calls,
and the JS return object `{saved, qualified, heyreachSent}`. -/
structure SaveOutcome where
  qualifiedDir : List Prospect
  disqualifiedDir : List Prospect
  apiCalls : Nat
  saved : Bool
  qualifiedFlag : Bool
  heyreachSent : Bool
deriving DecidableEq

/-- Embeds `saveQualification` from batch-qualify.js: look the profile
up by name in the CSV set, branch on `qualified && score >= minScore`,
and in the qualified branch attempt the Heyreach submission whenever
`config.heyreach && config.heyreach.apiKey` is truthy — recording a
failure as data on the prospect instead of raising. -/
def saveQualification (cfg : Config) (allProfiles : List Profile)
    (qualifiedDir disqualifiedDir : List Prospect) (apiCalls : Nat)
    (profileName : String) (qd : QualificationData) (outcome : ApiOutcome)
    (now : String) : Except String SaveOutcome :=
  match allProfiles.find? (fun p => p.name = profileName) with
  | none => .error ("Profile not found: " ++ profileName)
  | some profile =>
    if qd.qualified = true ∧ cfg.minScore ≤ qd.score then
      let base := qualifiedProspect profile qd now
      match cfg.heyreach with
      | some hc =>
        if hc.apiKey ≠ "" then
          let call := addProspectToCampaign cfg profile outcome
          match call.1 with
          | .ok res =>
            let hr : HeyreachRecord :=
              { sent := true, sentAt := some now,
                heyreachId := some res.heyreachId,
                listId := some hc.listId }
            let prospect := { base with heyreach := some hr }
            .ok ⟨qualifiedDir ++ [prospect], disqualifiedDir,
              apiCalls + call.2, true, true, true⟩
          | .error message =>
            let hr : HeyreachRecord :=
              { sent := false, error := some message,
                attemptedAt := some now }
            let prospect := { base with heyreach := some hr }
            .ok ⟨qualifiedDir ++ [prospect], disqualifiedDir,
              apiCalls + call.2, true, true, false⟩
        else
          .ok ⟨qualifiedDir ++ [base], disqualifiedDir, apiCalls,
            true, true, false⟩
      | none =>
        .ok ⟨qualifiedDir ++ [base], disqualifiedDir, apiCalls,
          true, true, false⟩
    else
      .ok ⟨qualifiedDir, disqualifiedDir ++ [disqualifiedProspect profile qd now],
        apiCalls, true, false, false⟩

/-- The filter predicate of `getFailedHeyreachSends`
(src/heyreach-client.js): `p.heyreach && p.heyreach.sent === false &&
p.heyreach.error` (JS truthiness on the error string). -/
def heyreachFailed (p : Prospect) : Bool :=
  match p.heyreach with
  | some h => !h.sent && (match h.error with
      | some e => !e.isEmpty
      | none => false)
  | none => false

/-- Embeds `getFailedHeyreachSends` (src/heyreach-client.js). -/
def getFailedHeyreachSends (qualifiedProfiles : List Prospect) :
    List Prospect :=
  qualifiedProfiles.filter heyreachFailed

/-! ### C1: submission idempotency -/

/-- Attach a heyreach submission record to a prospect, as the submit
paths of `saveQualification` do. -/
def withHeyreach (p : Prospect) (h : HeyreachRecord) : Prospect :=
  { p with heyreach := some h }

/-- The heyreach object recorded on HTTP success. -/
def sentRecord (now : String) (heyreachId : List Char) (listId : String) :
    HeyreachRecord :=
  { sent := true, sentAt := some now, heyreachId := some heyreachId,
    listId := some listId }

/-- The heyreach object recorded on HTTP failure. -/
def failedRecord (message now : String) : HeyreachRecord :=
  { sent := false, error := some message, attemptedAt := some now }

/-- Fixture: CSV profile for the submission claims. -/
def adaCsv : Profile :=
  { name := "Ada", url := "https://x.com/in/ada".toList }

/-- Fixture: a standard configuration with Heyreach enabled. -/
def cfgStd : Config :=
  { minScore := 70, heyreach := some { apiKey := "key", listId := "406467" } }

/-- Fixture: a qualification verdict above the threshold. -/
def adaQD : QualificationData := { qualified := true, score := 85 }

/-- Fixture: the stored record left by a first, successful submission —
its campaign-submission data has `sent = true`. -/
def submittedAda : Prospect :=
  withHeyreach (qualifiedProspect adaCsv adaQD "t1")
    (sentRecord "t1" "id1".toList "406467")

/-- C1 counterexample: with `submittedAda` (already `sent = true`)
stored and one external call already performed, invoking
`saveQualification` again for the same profile performs a second
external API call (the counter goes from 1 to 2) and does not return
the stored record set unchanged — a second file is appended, so the
qualified set now has two records.  There is no submitted-guard in the
code. -/
theorem submit_idempotence_counterexample :
    (saveQualification cfgStd [adaCsv] [submittedAda] [] 1 "Ada" adaQD
      (.success "id2".toList) "t2").toOption.map (fun o => o.apiCalls) =
      some 2 ∧
    (saveQualification cfgStd [adaCsv] [submittedAda] [] 1 "Ada" adaQD
      (.success "id2".toList) "t2").toOption.map
        (fun o => o.qualifiedDir.length) = some 2 := by
  refine ⟨by decide, by decide⟩

/-- C1 amended: the submit path has no idempotency guard.  Whenever the
named profile exists, the verdict qualifies, and Heyreach is configured,
`saveQualification` performs exactly one more external API call and
appends a fresh prospect record — regardless of what the stored
qualified set already contains, in particular even when it already holds
a record with `sent = true` for the same profile.  At-most-once
submission is enforced only upstream, by batch selection filtering
already-processed names. -/
theorem submit_no_guard (cfg : Config) (hc : HeyreachConfig)
    (allProfiles : List Profile) (qdir ddir : List Prospect) (calls : Nat)
    (name : String) (qd : QualificationData) (outcome : ApiOutcome)
    (now : String) (profile : Profile)
    (hfind : allProfiles.find? (fun p => p.name = name) = some profile)
    (hq : qd.qualified = true) (hs : cfg.minScore ≤ qd.score)
    (hcfg : cfg.heyreach = some hc) (hkey : hc.apiKey ≠ "")
    (hlist : hc.listId ≠ "") (hurl : profile.url.isEmpty = false) :
    ∃ out, saveQualification cfg allProfiles qdir ddir calls name qd
        outcome now = .ok out ∧
      out.apiCalls = calls + 1 ∧
      ∃ pr, out.qualifiedDir = qdir ++ [pr] ∧ pr.heyreach.isSome = true := by
  cases outcome with
  | success hid =>
    refine ⟨⟨qdir ++ [withHeyreach (qualifiedProspect profile qd now)
        (sentRecord now hid hc.listId)], ddir, calls + 1, true, true, true⟩,
      ?_, rfl, _, rfl, rfl⟩
    simp [saveQualification, addProspectToCampaign, hfind, hcfg, hq, hs,
      hkey, hlist, hurl, withHeyreach, sentRecord]
  | failure m =>
    refine ⟨⟨qdir ++ [withHeyreach (qualifiedProspect profile qd now)
        (failedRecord m now)], ddir, calls + 1, true, true, false⟩,
      ?_, rfl, _, rfl, rfl⟩
    simp [saveQualification, addProspectToCampaign, hfind, hcfg, hq, hs,
      hkey, hlist, hurl, withHeyreach, failedRecord]

theorem submit_no_guard_witness :
    ∃ out, saveQualification cfgStd [adaCsv] [submittedAda] [] 1 "Ada"
        adaQD (.success "id2".toList) "t2" = .ok out ∧
      out.apiCalls = 1 + 1 ∧
      ∃ pr, out.qualifiedDir = [submittedAda] ++ [pr] ∧
        pr.heyreach.isSome = true :=
  submit_no_guard cfgStd { apiKey := "key", listId := "406467" }
    [adaCsv] [submittedAda] [] 1 "Ada" adaQD (.success "id2".toList) "t2"
    adaCsv (by decide) (by decide) (by decide) (by decide) (by decide)
    (by decide) (by decide)

/-! ### C5: submission failure recorded as data -/

/-- C5: when the campaign-service HTTP call fails with message `m`, the
submit path raises nothing (the result is `Except.ok`), appends the
record to the qualified set (the record stays in the qualified stage,
not advanced) with `heyreach = {sent: false, error: m, attemptedAt:
now}`, leaves the disqualified set untouched, reports
`heyreachSent = false`, and `getFailedHeyreachSends` returns exactly the
stored records with `sent = false` and a truthy error — in particular
this one. -/
theorem submit_failure_recorded (cfg : Config) (hc : HeyreachConfig)
    (allProfiles : List Profile) (qdir ddir : List Prospect) (calls : Nat)
    (name : String) (qd : QualificationData) (m now : String)
    (profile : Profile)
    (hfind : allProfiles.find? (fun p => p.name = name) = some profile)
    (hq : qd.qualified = true) (hs : cfg.minScore ≤ qd.score)
    (hcfg : cfg.heyreach = some hc) (hkey : hc.apiKey ≠ "")
    (hlist : hc.listId ≠ "") (hurl : profile.url.isEmpty = false)
    (hm : m ≠ "") :
    saveQualification cfg allProfiles qdir ddir calls name qd (.failure m)
      now = .ok ⟨qdir ++ [withHeyreach (qualifiedProspect profile qd now)
        (failedRecord m now)], ddir, calls + 1, true, true, false⟩ ∧
    withHeyreach (qualifiedProspect profile qd now) (failedRecord m now) ∈
      getFailedHeyreachSends (qdir ++ [withHeyreach
        (qualifiedProspect profile qd now) (failedRecord m now)]) ∧
    (∀ (l : List Prospect) (p : Prospect),
      p ∈ getFailedHeyreachSends l ↔ p ∈ l ∧ heyreachFailed p = true) := by
  refine ⟨?_, ?_, ?_⟩
  · simp [saveQualification, addProspectToCampaign, hfind, hcfg, hq, hs,
      hkey, hlist, hurl, withHeyreach, failedRecord]
  · refine List.mem_filter.mpr
      ⟨List.mem_append_right _ (List.mem_singleton.mpr rfl), ?_⟩
    have hm' : m.isEmpty = false := by
      cases he : m.isEmpty
      · rfl
      · exact absurd ((String.isEmpty_iff m).mp he) hm
    simp [heyreachFailed, withHeyreach, failedRecord, hm']
  · intro l p
    exact List.mem_filter

theorem submit_failure_recorded_witness :
    saveQualification cfgStd [adaCsv] [] [] 0 "Ada" adaQD
      (.failure "Heyreach API error (500): boom") "t1" =
      .ok ⟨[] ++ [withHeyreach (qualifiedProspect adaCsv adaQD "t1")
        (failedRecord "Heyreach API error (500): boom" "t1")], [],
        0 + 1, true, true, false⟩ ∧
    withHeyreach (qualifiedProspect adaCsv adaQD "t1")
        (failedRecord "Heyreach API error (500): boom" "t1") ∈
      getFailedHeyreachSends ([] ++ [withHeyreach
        (qualifiedProspect adaCsv adaQD "t1")
        (failedRecord "Heyreach API error (500): boom" "t1")]) ∧
    (∀ (l : List Prospect) (p : Prospect),
      p ∈ getFailedHeyreachSends l ↔ p ∈ l ∧ heyreachFailed p = true) :=
  submit_failure_recorded cfgStd { apiKey := "key", listId := "406467" }
    [adaCsv] [] [] 0 "Ada" adaQD "Heyreach API error (500): boom" "t1"
    adaCsv (by decide) (by decide) (by decide) (by decide) (by decide)
    (by decide) (by decide) (by decide)


/-! ### C2: stage-skip invariant

The pipeline state is the pair of record directories; the operations
are `saveQualification` (classification plus the submission side
effect) and `checkAcceptedConnections` (acceptance reconciliation). -/

/-- The persistent store: the two record directories. -/
structure Store where
  qualifiedDir : List Prospect := []
  disqualifiedDir : List Prospect := []
deriving DecidableEq

/-- States reachable by running the pipeline operations from an empty
store, with arbitrary inputs and arbitrary external outcomes. -/
inductive Reachable : Store → Prop
  | init : Reachable ⟨[], []⟩
  | save (cfg : Config) (allProfiles : List Profile) (calls : Nat)
      (name : String) (qd : QualificationData) (outcome : ApiOutcome)
      (now : String) (out : SaveOutcome) (s : Store) :
      Reachable s →
      saveQualification cfg allProfiles s.qualifiedDir s.disqualifiedDir
        calls name qd outcome now = .ok out →
      Reachable ⟨out.qualifiedDir, out.disqualifiedDir⟩
  | reconcile (now : String) (leads : List Lead) (s : Store) :
      Reachable s →
      Reachable ⟨(checkAcceptedConnections now leads s.qualifiedDir).1,
        s.disqualifiedDir⟩

/-- `updateOne` preserves any pointwise property that `markAccepted`
preserves. -/
theorem updateOne_forall {P : Prospect → Prop}
    (hP : ∀ p (now : String) (leadId : Nat), P p → P (markAccepted p now leadId))
    {nu : List Char} {now : String} {leadId : Nat} :
    ∀ {ps : List Prospect}, (∀ p ∈ ps, P p) →
      ∀ p ∈ (updateOne nu now leadId ps).1, P p := by
  intro ps
  induction ps with
  | nil => intro h p hp; simp [updateOne] at hp
  | cons q ps ih =>
    intro h p hp
    by_cases hq : normalizeLinkedInUrl q.url = nu
    · by_cases ha : q.connectionAccepted
      · simp only [updateOne, if_pos hq, if_pos ha] at hp
        exact h p hp
      · simp only [updateOne, if_pos hq, if_neg ha, List.mem_cons] at hp
        rcases hp with rfl | hp
        · exact hP q now leadId (h q (List.mem_cons_self _ _))
        · exact h p (List.mem_cons_of_mem _ hp)
    · simp only [updateOne, if_neg hq, List.mem_cons] at hp
      rcases hp with rfl | hp
      · exact h p (List.mem_cons_self _ _)
      · exact ih (fun x hx => h x (List.mem_cons_of_mem _ hx)) p hp

/-- The lead loop preserves any pointwise property that `markAccepted`
preserves. -/
theorem updateProfiles_forall {P : Prospect → Prop}
    (hP : ∀ p (now : String) (leadId : Nat), P p → P (markAccepted p now leadId))
    (now : String) :
    ∀ (leads : List Lead) (ps : List Prospect), (∀ p ∈ ps, P p) →
      ∀ p ∈ (updateProfilesWithAcceptances now leads ps).1, P p := by
  intro leads
  induction leads with
  | nil => intro ps h p hp; exact h p hp
  | cons lead rest ih =>
    intro ps h p hp
    cases hurl : getLinkedInUrl lead with
    | none =>
      rw [updateProfilesWithAcceptances] at hp
      simp only [hurl] at hp
      exact ih ps h p hp
    | some u =>
      rw [updateProfilesWithAcceptances] at hp
      simp only [hurl] at hp
      exact ih _ (updateOne_forall hP h) p hp

/-- `checkAcceptedConnections` preserves any pointwise property that
`markAccepted` preserves. -/
theorem checkAccepted_forall {P : Prospect → Prop}
    (hP : ∀ p (now : String) (leadId : Nat), P p → P (markAccepted p now leadId))
    (now : String) (leads : List Lead) (ps : List Prospect)
    (h : ∀ p ∈ ps, P p) :
    ∀ p ∈ (checkAcceptedConnections now leads ps).1, P p := by
  rw [checkAcceptedConnections]
  by_cases he : (leads.filter isConnectionAccepted).isEmpty
  · simpa [he] using h
  · simpa [he] using updateProfiles_forall hP now _ ps h

/-- Shape of a successful `saveQualification`: either one qualified
record (isQualified = true, not accepted yet) is appended to the
qualified directory, or one disqualified record (isQualified = false,
not accepted) is appended to the disqualified directory; the other
directory is untouched. -/
theorem saveQualification_ok_dirs (cfg : Config) (allProfiles : List Profile)
    (qdir ddir : List Prospect) (calls : Nat) (name : String)
    (qd : QualificationData) (outcome : ApiOutcome) (now : String)
    (out : SaveOutcome)
    (h : saveQualification cfg allProfiles qdir ddir calls name qd outcome
      now = .ok out) :
    (∃ pr, out.qualifiedDir = qdir ++ [pr] ∧
      pr.qualification.map (fun q => q.isQualified) = some true ∧
      pr.connectionAccepted = false ∧ out.disqualifiedDir = ddir) ∨
    (out.qualifiedDir = qdir ∧ ∃ pr, out.disqualifiedDir = ddir ++ [pr] ∧
      pr.qualification.map (fun q => q.isQualified) = some false ∧
      pr.connectionAccepted = false) := by
  rw [saveQualification] at h
  cases hfind : allProfiles.find? (fun p => p.name = name) with
  | none => rw [hfind] at h; cases h
  | some profile =>
    rw [hfind] at h
    simp only at h
    by_cases hqual : qd.qualified = true ∧ cfg.minScore ≤ qd.score
    · rw [if_pos hqual] at h
      cases hcy : cfg.heyreach with
      | none =>
        rw [hcy] at h
        cases h
        exact Or.inl ⟨_, rfl, by simp [qualifiedProspect], rfl, rfl⟩
      | some hc =>
        rw [hcy] at h
        simp only at h
        by_cases hkey : hc.apiKey ≠ ""
        · rw [if_pos hkey] at h
          cases hcall : (addProspectToCampaign cfg profile outcome).1 with
          | ok res =>
            rw [hcall] at h
            cases h
            exact Or.inl ⟨_, rfl, by simp [qualifiedProspect], rfl, rfl⟩
          | error message =>
            rw [hcall] at h
            cases h
            exact Or.inl ⟨_, rfl, by simp [qualifiedProspect], rfl, rfl⟩
        · rw [if_neg hkey] at h
          cases h
          exact Or.inl ⟨_, rfl, by simp [qualifiedProspect], rfl, rfl⟩
    · rw [if_neg hqual] at h
      cases h
      exact Or.inr ⟨rfl, _, rfl, by simp [disqualifiedProspect], rfl⟩

/-- C2 amended: in every reachable store state, every record in the
qualified directory has `qualification.isQualified = true` and every
record in the disqualified directory has
`qualification.isQualified = false` and is never marked accepted — so
acceptance implies the record was classified qualified.  Acceptance does
NOT imply a successful submission (`sent = true`); see the
counterexample. -/
theorem stage_skip_amended (s : Store) (h : Reachable s) :
    (∀ p ∈ s.qualifiedDir,
      p.qualification.map (fun q => q.isQualified) = some true) ∧
    (∀ p ∈ s.disqualifiedDir,
      p.qualification.map (fun q => q.isQualified) = some false ∧
      p.connectionAccepted = false) := by
  induction h with
  | init =>
    exact ⟨fun p hp => absurd hp (List.not_mem_nil p),
           fun p hp => absurd hp (List.not_mem_nil p)⟩
  | save cfg allProfiles calls name qd outcome now out s _ hok ih =>
    rcases saveQualification_ok_dirs cfg allProfiles s.qualifiedDir
      s.disqualifiedDir calls name qd outcome now out hok with
      ⟨pr, hq, hiq, _, hd⟩ | ⟨hq, pr, hd, hiq, hacc⟩
    · constructor
      · intro p hp
        rw [hq] at hp
        rcases List.mem_append.mp hp with hp | hp
        · exact ih.1 p hp
        · rw [List.mem_singleton.mp hp]; exact hiq
      · intro p hp
        rw [hd] at hp
        exact ih.2 p hp
    · constructor
      · intro p hp
        rw [hq] at hp
        exact ih.1 p hp
      · intro p hp
        rw [hd] at hp
        rcases List.mem_append.mp hp with hp | hp
        · exact ih.2 p hp
        · rw [List.mem_singleton.mp hp]; exact ⟨hiq, hacc⟩
  | reconcile now leads s _ ih =>
    refine ⟨?_, ih.2⟩
    exact checkAccepted_forall (fun p _ _ hp => hp) now leads
      s.qualifiedDir ih.1

/-- Fixture: the record left in the qualified directory by a qualified
save whose Heyreach submission failed (`sent = false`). -/
def failedAda : Prospect :=
  withHeyreach (qualifiedProspect adaCsv adaQD "t1")
    (failedRecord "Heyreach API error (500): boom" "t1")

/-- Fixture: an accepted campaign lead whose URL matches `failedAda`. -/
def adaLead : Lead :=
  { id := 9, leadConnectionStatus := "ConnectionAccepted",
    linkedInProfileUrl := some "https://x.com/in/ada".toList }

/-- Fixture: the reachable store exhibiting the stage skip — one
reconciled record whose submission had failed. -/
def skipState : Store :=
  ⟨(checkAcceptedConnections "t2" [adaLead] [failedAda]).1, []⟩

/-- C2 counterexample: a store state reachable by a qualified save with
a failed Heyreach submission followed by acceptance reconciliation
contains a record with `connectionAccepted = true` whose heyreach data
has `sent = false` — acceptance does not imply a successful
submission. -/
theorem stage_skip_counterexample :
    Reachable skipState ∧
    skipState.qualifiedDir.map (fun p => p.connectionAccepted) = [true] ∧
    skipState.qualifiedDir.map
      (fun p => p.heyreach.map (fun hr => hr.sent)) = [some false] ∧
    skipState.qualifiedDir.map
      (fun p => p.qualification.map (fun q => q.isQualified)) =
      [some true] := by
  refine ⟨?_, by decide, by decide, by decide⟩
  have h1 : saveQualification cfgStd [adaCsv] [] [] 0 "Ada" adaQD
      (.failure "Heyreach API error (500): boom") "t1" =
      .ok ⟨[failedAda], [], 1, true, true, false⟩ := by rfl
  have h2 := Reachable.save cfgStd [adaCsv] 0 "Ada" adaQD
    (.failure "Heyreach API error (500): boom") "t1"
    ⟨[failedAda], [], 1, true, true, false⟩ ⟨[], []⟩ Reachable.init h1
  exact Reachable.reconcile "t2" [adaLead] ⟨[failedAda], []⟩ h2

theorem stage_skip_amended_witness :
    (∀ p ∈ (Store.mk [failedAda] []).qualifiedDir,
      p.qualification.map (fun q => q.isQualified) = some true) ∧
    (∀ p ∈ (Store.mk [failedAda] []).disqualifiedDir,
      p.qualification.map (fun q => q.isQualified) = some false ∧
      p.connectionAccepted = false) :=
  stage_skip_amended ⟨[failedAda], []⟩
    (Reachable.save cfgStd [adaCsv] 0 "Ada" adaQD
      (.failure "Heyreach API error (500): boom") "t1"
      ⟨[failedAda], [], 1, true, true, false⟩ ⟨[], []⟩ Reachable.init
      (by rfl))

/-! ### C9: human-in-the-loop send gate (send-messages module) -/

/-- Outcome of the external SendMessage HTTP exchange. -/
inductive SendOutcome
  | success (response : String)
  | failure (message : String)
deriving DecidableEq

/-- The readiness filter of `loadProfilesReadyForMessage`:
`connectionAccepted === true && outreachApproved === true &&
outreachMessage && messageSent !== true`. -/
def readyForMessage (p : Prospect) : Bool :=
  p.connectionAccepted && p.outreachApproved &&
    (match p.outreachMessage with
     | some m => !m.isEmpty
     | none => false) &&
    !(p.messageSent == some true)

/-- Embeds `loadProfilesReadyForMessage` (send-messages module). -/
def loadProfilesReadyForMessage (store : List Prospect) : List Prospect :=
  store.filter readyForMessage

/-- The per-profile update written back after a send attempt. -/
def applySend (p : Prospect) (o : SendOutcome) (now : String) : Prospect :=
  match o with
  | .success resp =>
    { p with messageSent := some true, messageSentAt := some now,
             messageSentResponse := some resp }
  | .failure m =>
    { p with messageSent := some false, messageError := some m,
             messageAttemptedAt := some now }

/-- Embeds `sendMessagesToReadyProfiles` (send-messages module): load
the ready profiles, send one message per ready profile via the external
API (the sends performed are returned as `(recipient url, message)`
pairs), and write the sent/failed status back to each attempted file;
profiles outside the ready set are untouched. -/
def sendMessagesToReadyProfiles (linkedInAccountId : Option String)
    (store : List Prospect) (outcome : Prospect → SendOutcome)
    (now : String) :
    Except String (List Prospect × List (List Char × String)) :=
  match linkedInAccountId with
  | none => .error
      "LinkedIn Account ID not configured in config.json (heyreach.linkedInAccountId)"
  | some _ => .ok
      (store.map (fun p =>
        if readyForMessage p then applySend p (outcome p) now else p),
       (loadProfilesReadyForMessage store).map
        (fun p => (p.url, p.outreachMessage.getD "")))

/-- C9: `sendMessagesToReadyProfiles` never sends a message for, nor
touches the stored state of, a profile that does not pass the readiness
gate; and the gate holds exactly when `connectionAccepted = true`,
`outreachApproved = true`, a non-empty `outreachMessage` exists, and
`messageSent` is not already `true`. -/
theorem send_gate (acct : Option String) (store : List Prospect)
    (outcome : Prospect → SendOutcome) (now : String) :
    (∀ res, sendMessagesToReadyProfiles acct store outcome now = .ok res →
      (∀ s ∈ res.2, ∃ p ∈ store, readyForMessage p = true ∧
        s = (p.url, p.outreachMessage.getD "")) ∧
      res.1.length = store.length ∧
      (∀ i (h1 : i < store.length) (h2 : i < res.1.length),
        readyForMessage (store.get ⟨i, h1⟩) = false →
        res.1.get ⟨i, h2⟩ = store.get ⟨i, h1⟩)) ∧
    (∀ p, readyForMessage p = true →
      p.connectionAccepted = true ∧ p.outreachApproved = true ∧
      (∃ m, p.outreachMessage = some m ∧ m ≠ "") ∧
      p.messageSent ≠ some true) := by
  constructor
  · intro res hres
    cases acct with
    | none => cases hres
    | some a =>
      rw [sendMessagesToReadyProfiles] at hres
      cases hres
      refine ⟨?_, by simp, ?_⟩
      · intro s hs
        simp only [loadProfilesReadyForMessage, List.mem_map] at hs
        obtain ⟨p, hp, rfl⟩ := hs
        exact ⟨p, (List.mem_filter.mp hp).1,
          (List.mem_filter.mp hp).2, rfl⟩
      · intro i h1 h2 hng
        simp only [List.get_eq_getElem] at hng
        simp [List.get_eq_getElem, List.getElem_map, hng]
  · intro p hp
    rw [readyForMessage] at hp
    simp only [Bool.and_eq_true, Bool.not_eq_true'] at hp
    obtain ⟨⟨⟨hacc, happ⟩, hmsg⟩, hsent⟩ := hp
    refine ⟨hacc, happ, ?_, ?_⟩
    · cases hm : p.outreachMessage with
      | none => rw [hm] at hmsg; cases hmsg
      | some m =>
        rw [hm] at hmsg
        simp only [Bool.not_eq_true'] at hmsg
        refine ⟨m, rfl, fun he => ?_⟩
        rw [he] at hmsg
        exact absurd hmsg (by decide)
    · intro he
      rw [he] at hsent
      simp at hsent

/-- Fixture: a profile passing the send gate. -/
def readyProfile : Prospect :=
  { name := "Rae", url := "https://x.com/in/rae".toList,
    connectionAccepted := true, outreachApproved := true,
    outreachMessage := some "hello", messageSent := none }

theorem send_gate_witness :
    readyForMessage readyProfile = true ∧
    readyProfile.connectionAccepted = true ∧
    readyProfile.outreachApproved = true ∧
    (∃ m, readyProfile.outreachMessage = some m ∧ m ≠ "") ∧
    readyProfile.messageSent ≠ some true :=
  ⟨by decide,
   (send_gate (some "acct") [readyProfile]
      (fun _ => SendOutcome.success "ok") "t").2 readyProfile (by decide)⟩

/-! ### C10: the dedupe key is the profile name -/

/-- Embeds `getProcessedProfileNames` (src/mcp-server.js and
batch-qualify.js): the set of `name` fields over both record
directories (membership is what the callers test). -/
def getProcessedProfileNames (qualifiedDir disqualifiedDir : List Prospect) :
    List String :=
  (qualifiedDir ++ disqualifiedDir).map (fun p => p.name)

/-- Embeds `getNextBatch` (batch-qualify.js): the first `batchSize`
CSV profiles whose name is not yet processed. -/
def getNextBatch (allProfiles : List Profile)
    (qualifiedDir disqualifiedDir : List Prospect) (batchSize : Nat) :
    List Profile :=
  (allProfiles.filter (fun p =>
    !(getProcessedProfileNames qualifiedDir disqualifiedDir).contains
      p.name)).take batchSize

/-- Embeds `getNextUnqualifiedProfile` (src/mcp-server.js): the first
CSV profile whose name is not yet processed. -/
def getNextUnqualifiedProfile (allProfiles : List Profile)
    (qualifiedDir disqualifiedDir : List Prospect) : Option Profile :=
  allProfiles.find? (fun p =>
    !(getProcessedProfileNames qualifiedDir disqualifiedDir).contains
      p.name)

/-- The profile lookup both `saveQualification` variants perform:
`allProfiles.find(p => p.name === profileName)`. -/
def saveQualificationLookup (allProfiles : List Profile)
    (profileName : String) : Option Profile :=
  allProfiles.find? (fun p => p.name = profileName)

/-- C10: the dedupe/identity key is the free-text `name`, not the URL.
If two distinct profiles share a name and that name is already
processed (one of them was saved), then neither `getNextBatch` nor
`getNextUnqualifiedProfile` ever returns the other profile, and the
`saveQualification` lookup for that name resolves to the first profile
carrying it — so distinct people sharing a name are conflated. -/
theorem lookup_first_with_name (n : String) (p1 : Profile)
    (l2 : List Profile) :
    ∀ l1 : List Profile, p1.name = n → (∀ x ∈ l1, x.name ≠ n) →
      saveQualificationLookup (l1 ++ p1 :: l2) n = some p1 := by
  intro l1
  induction l1 with
  | nil =>
    intro h1 _
    show List.find? (fun p => p.name = n) ([] ++ p1 :: l2) = some p1
    rw [List.nil_append]
    exact List.find?_cons_of_pos _ (by simp [h1])
  | cons x xs ih =>
    intro h1 hfir
    have hx : ¬ (decide (x.name = n) = true) := by
      simp only [decide_eq_true_eq]
      exact hfir x (List.mem_cons_self _ _)
    calc saveQualificationLookup ((x :: xs) ++ p1 :: l2) n
        = List.find? (fun p => p.name = n) (x :: (xs ++ p1 :: l2)) := rfl
      _ = List.find? (fun p => p.name = n) (xs ++ p1 :: l2) :=
          List.find?_cons_of_neg _ hx
      _ = some p1 := ih h1 (fun y hy => hfir y (List.mem_cons_of_mem _ hy))

/-- C10: the dedupe/identity key is the free-text `name`, not the URL.
If two distinct profiles share a name and that name is already
processed (one of them was saved), then neither `getNextBatch` nor
`getNextUnqualifiedProfile` ever returns the other profile, and the
`saveQualification` lookup for that name resolves to the first profile
carrying it — so distinct people sharing a name are conflated. -/
theorem name_is_dedupe_key (allProfiles l1 l2 : List Profile)
    (p1 p2 : Profile) (qualifiedDir disqualifiedDir : List Prospect)
    (batchSize : Nat)
    (hname : p1.name = p2.name) (hne : p1 ≠ p2)
    (hsaved : p1.name ∈ getProcessedProfileNames qualifiedDir disqualifiedDir)
    (hsplit : allProfiles = l1 ++ p1 :: l2)
    (hfirst : ∀ x ∈ l1, x.name ≠ p1.name) :
    p2 ∉ getNextBatch allProfiles qualifiedDir disqualifiedDir batchSize ∧
    getNextUnqualifiedProfile allProfiles qualifiedDir disqualifiedDir ≠
      some p2 ∧
    saveQualificationLookup allProfiles p2.name = some p1 := by
  have hp2 : (!(getProcessedProfileNames qualifiedDir
      disqualifiedDir).contains p2.name) = false := by
    rw [← hname]
    have h := List.elem_eq_true_of_mem hsaved
    simp [List.contains, h]
    exact hsaved
  refine ⟨?_, ?_, ?_⟩
  · intro hmem
    have hmem' := List.mem_of_mem_take hmem
    have := (List.mem_filter.mp hmem').2
    rw [hp2] at this
    cases this
  · intro hfind
    have := List.find?_some hfind
    rw [hp2] at this
    cases this
  · rw [hsplit]
    exact lookup_first_with_name p2.name p1 l2 l1 hname
      (fun x hx => hname ▸ hfirst x hx)

/-- Fixture: a second, distinct CSV profile sharing the name of
`adaCsv` but with a different URL. -/
def adaCsv2 : Profile :=
  { name := "Ada", url := "https://x.com/in/ada-2".toList }

theorem name_is_dedupe_key_witness :
    adaCsv2 ∉ getNextBatch [adaCsv, adaCsv2] [submittedAda] [] 5 ∧
    getNextUnqualifiedProfile [adaCsv, adaCsv2] [submittedAda] [] ≠
      some adaCsv2 ∧
    saveQualificationLookup [adaCsv, adaCsv2] adaCsv2.name = some adaCsv :=
  name_is_dedupe_key [adaCsv, adaCsv2] [] [adaCsv2] adaCsv adaCsv2
    [submittedAda] [] 5 (by decide) (by decide) (by decide) (by decide)
    (fun x hx => absurd hx (List.not_mem_nil x))

/-! ### C3/C4: verdict parsing and classification error absorption

Embeds `parseResult` and `qualifyProfile` from the webhook qualification
service.  The JS extracts a payload with the regex `\x7b[\s\S]*\x7d`
(the span from the first opening brace to the last closing brace) and
feeds it to `JSON.parse`.  `JSON.parse` is modelled for the flat
verdict objects the service exchanges: an object of string/number/
boolean/null members with no nesting and no string escapes, consuming
the whole input — where the model parser succeeds, `JSON.parse`
succeeds with the same members. -/

def backslashChar : Char := Char.ofNat 92

/-- JSON whitespace. -/
def isWsChar (c : Char) : Bool :=
  c = ' ' || c = Char.ofNat 10 || c = Char.ofNat 9 || c = Char.ofNat 13

def skipWs (l : List Char) : List Char := l.dropWhile isWsChar

/-- A JSON value of the flat verdict payload. -/
inductive JVal
  | str (s : String)
  | num (n : Int)
  | jbool (b : Bool)
  | jnull
deriving DecidableEq

/-- Parse a JSON string literal (no escape sequences). -/
def parseStringLit : List Char → Option (String × List Char)
  | c :: rest =>
    if c = dquote then
      let content := rest.takeWhile
        (fun ch => ch ≠ dquote && ch ≠ backslashChar)
      match rest.drop content.length with
      | c2 :: r => if c2 = dquote then some (content.asString, r) else none
      | [] => none
    else none
  | [] => none

def digitsToNat (ds : List Char) : Nat :=
  ds.foldl (fun a c => a * 10 + (c.toNat - 48)) 0

/-- Parse a JSON integer literal. -/
def parseNumberLit : List Char → Option (Int × List Char)
  | c :: rest =>
    if c = '-' then
      let ds := rest.takeWhile (fun ch => ch.isDigit)
      if ds.isEmpty then none
      else some (-(digitsToNat ds : Int), rest.drop ds.length)
    else if c.isDigit then
      let ds := (c :: rest).takeWhile (fun ch => ch.isDigit)
      some ((digitsToNat ds : Int), (c :: rest).drop ds.length)
    else none
  | [] => none

/-- Match an exact literal such as `true`. -/
def dropLit : List Char → List Char → Option (List Char)
  | [], l => some l
  | p :: ps, c :: cs => if c = p then dropLit ps cs else none
  | _ :: _, [] => none

/-- Parse a primitive JSON value. -/
def parseValue (l : List Char) : Option (JVal × List Char) :=
  match l with
  | [] => none
  | c :: _ =>
    if c = dquote then
      (parseStringLit l).map (fun r => (JVal.str r.1, r.2))
    else if c = 't' then
      (dropLit "true".toList l).map (fun r => (JVal.jbool true, r))
    else if c = 'f' then
      (dropLit "false".toList l).map (fun r => (JVal.jbool false, r))
    else if c = 'n' then
      (dropLit "null".toList l).map (fun r => (JVal.jnull, r))
    else
      (parseNumberLit l).map (fun r => (JVal.num r.1, r.2))

/-- Parse the members of an object after its opening brace. -/
def parseMembers : Nat → List Char → Option (List (String × JVal) × List Char)
  | 0, _ => none
  | fuel + 1, l =>
    match parseStringLit (skipWs l) with
    | none => none
    | some (k, r1) =>
      match skipWs r1 with
      | c :: r2 =>
        if c = ':' then
          match parseValue (skipWs r2) with
          | none => none
          | some (v, r3) =>
            match skipWs r3 with
            | c2 :: r4 =>
              if c2 = ',' then
                match parseMembers fuel r4 with
                | some (ms, rest) => some ((k, v) :: ms, rest)
                | none => none
              else if c2 = rbrace then some ([(k, v)], r4)
              else none
            | [] => none
        else none
      | [] => none

/-- `JSON.parse` on a flat object, requiring the whole input to be
consumed (a payload with trailing garbage is a parse error). -/
def parseObject (l : List Char) : Option (List (String × JVal)) :=
  match skipWs l with
  | [] => none
  | c :: r =>
    if c = lbrace then
      match skipWs r with
      | c2 :: r2 =>
        if c2 = rbrace then
          if (skipWs r2).isEmpty then some [] else none
        else
          match parseMembers (r.length + 1) r with
          | some (ms, rest) => if (skipWs rest).isEmpty then some ms else none
          | none => none
      | [] => none
    else none

def notLbrace (c : Char) : Bool := c ≠ lbrace

def notRbrace (c : Char) : Bool := c ≠ rbrace

/-- The JS regex `\x7b[\s\S]*\x7d` applied to the response: the span
from the first opening brace through the last closing brace after it,
or nothing when no such span exists. -/
def extractJsonSpan (r : List Char) : Option (List Char) :=
  let t := r.dropWhile notLbrace
  let u := (t.reverse.dropWhile notRbrace).reverse
  if u.isEmpty then none else some u

/-- The result record of `parseResult` (webhook qualification service).
The decision is validated to one of the four tier strings; the free
fields keep whatever JS value the payload carried (`x || default`). -/
structure QualificationResult where
  decision : String
  reason : JVal
  roleDetected : JVal
  clientTypeInferred : JVal
  mindsetSignals : JVal
deriving DecidableEq

/-- The verdict synthesized when parsing fails. -/
def parseFailureResult : QualificationResult :=
  ⟨"SKIP", .str "Failed to parse LLM response", .str "", .str "", .str ""⟩

def validDecisions : List String := ["TIER_1", "TIER_2", "TIER_3", "SKIP"]

/-- The decision validation of `parseResult`:
`validDecisions.includes(parsed.decision)`. -/
def decisionOf (obj : List (String × JVal)) : Option String :=
  match obj.lookup "decision" with
  | some (.str s) => if validDecisions.contains s then some s else none
  | _ => none

/-- JS truthiness of a parsed JSON value. -/
def jsTruthy : JVal → Bool
  | .str s => !s.isEmpty
  | .num n => decide (n ≠ 0)
  | .jbool b => b
  | .jnull => false

/-- JS `x || default` over an optional object member. -/
def jsOrField (v : Option JVal) (d : JVal) : JVal :=
  match v with
  | some x => if jsTruthy x then x else d
  | none => d

/-- Embeds `parseResult` (webhook qualification service): extract the
brace span, `JSON.parse` it, validate the decision; any failure yields
the conservative SKIP verdict. -/
def parseResult (response : List Char) : QualificationResult :=
  match extractJsonSpan response with
  | none => parseFailureResult
  | some span =>
    match parseObject span with
    | none => parseFailureResult
    | some obj =>
      match decisionOf obj with
      | none => parseFailureResult
      | some d =>
        { decision := d,
          reason := jsOrField (obj.lookup "reason") (.str "No reason provided"),
          roleDetected := jsOrField (obj.lookup "role_detected") (.str ""),
          clientTypeInferred :=
            jsOrField (obj.lookup "client_type_inferred") (.str ""),
          mindsetSignals := jsOrField (obj.lookup "mindset_signals") (.str "") }

/-- Follows the spec's words, for comparison with the code: the FIRST
balanced brace block of the response (scan to the first opening brace,
then to the brace that closes it). -/
def scanBalanced : List Char → Nat → Option (List Char)
  | [], _ => none
  | c :: rest, depth =>
    if c = lbrace then
      (scanBalanced rest (depth + 1)).map (fun s => c :: s)
    else if c = rbrace then
      if depth = 1 then some [c]
      else (scanBalanced rest (depth - 1)).map (fun s => c :: s)
    else
      (scanBalanced rest depth).map (fun s => c :: s)

/-- Follows the spec's words, for comparison with the code: extract the
first balanced brace-delimited block. -/
def firstBalancedBlock (r : List Char) : Option (List Char) :=
  scanBalanced (r.dropWhile notLbrace) 0

/-- The spec's prose-wrapped example response. -/
def proseExample : List Char :=
  "Sure! Here you go: \x7b\"decision\":\"TIER_1\",\"reason\":\"ok\"\x7d".toList

/-- A response holding two JSON objects separated by prose. -/
def twoBlockExample : List Char :=
  ("Sure! Here you go: \x7b\"decision\":\"TIER_1\",\"reason\":\"ok\"\x7d" ++
   " and also \x7b\"x\":\"y\"\x7d").toList

theorem dropWhile_append_of_all {α : Type} {p : α → Bool}
    {l1 l2 : List α} (h : ∀ a ∈ l1, p a = true) :
    (l1 ++ l2).dropWhile p = l2.dropWhile p := by
  induction l1 with
  | nil => rfl
  | cons a l ih =>
    rw [List.cons_append, List.dropWhile_cons,
      if_pos (h a (List.mem_cons_self _ _))]
    exact ih (fun x hx => h x (List.mem_cons_of_mem _ hx))

/-- The regex span on a response of shape `pre ++ block ++ post`, where
`pre` holds no opening brace, `post` holds no closing brace, and `block`
is brace-delimited, is exactly `block`. -/
theorem extractJsonSpan_of_shape (pre block post : List Char)
    (hpre : ∀ c ∈ pre, c ≠ lbrace)
    (hpost : ∀ c ∈ post, c ≠ rbrace)
    (hhead : block.head? = some lbrace)
    (hlast : block.getLast? = some rbrace) :
    extractJsonSpan (pre ++ block ++ post) = some block := by
  cases block with
  | nil => cases hhead
  | cons b bt =>
    have hb : b = lbrace := by
      rw [List.head?_cons] at hhead
      exact Option.some_inj.mp hhead
    subst hb
    have h1 : (pre ++ (lbrace :: bt) ++ post).dropWhile notLbrace =
        (lbrace :: bt) ++ post := by
      rw [List.append_assoc,
        dropWhile_append_of_all (fun a ha => by
          simp only [notLbrace, ne_eq, decide_eq_true_eq]
          exact hpre a ha),
        List.cons_append, List.dropWhile_cons,
        if_neg (by simp [notLbrace])]
    obtain ⟨srev, hrev⟩ : ∃ srev, (lbrace :: bt).reverse = rbrace :: srev := by
      cases hr : (lbrace :: bt).reverse with
      | nil =>
        exact absurd hr (by simp)
      | cons x srev =>
        have hx : x = rbrace := by
          have hh := List.head?_reverse (lbrace :: bt)
          rw [hr, hlast, List.head?_cons] at hh
          exact Option.some_inj.mp hh
        subst hx
        exact ⟨srev, rfl⟩
    have h2 : ((lbrace :: bt) ++ post).reverse.dropWhile notRbrace =
        (lbrace :: bt).reverse := by
      rw [List.reverse_append,
        dropWhile_append_of_all (fun a ha => by
          simp only [notRbrace, ne_eq, decide_eq_true_eq]
          exact hpost a (List.mem_reverse.mp ha)),
        hrev, List.dropWhile_cons, if_neg (by simp [notRbrace])]
    rw [extractJsonSpan]
    simp only [h1, h2, List.reverse_reverse]
    rw [if_neg (by simp)]

/-- C3 counterexample: on a response holding two prose-separated JSON
objects, the first balanced brace block parses cleanly to a `TIER_1`
verdict payload, yet `parseResult` fails (the code's regex grabs the
greedy span from the first opening to the LAST closing brace, which is
not valid JSON) and returns the SKIP parse-failure verdict — so the
parser does not extract the first balanced block. -/
theorem parse_first_block_counterexample :
    firstBalancedBlock twoBlockExample =
      some "\x7b\"decision\":\"TIER_1\",\"reason\":\"ok\"\x7d".toList ∧
    parseObject "\x7b\"decision\":\"TIER_1\",\"reason\":\"ok\"\x7d".toList =
      some [("decision", JVal.str "TIER_1"), ("reason", JVal.str "ok")] ∧
    decisionOf [("decision", JVal.str "TIER_1"), ("reason", JVal.str "ok")] =
      some "TIER_1" ∧
    parseResult twoBlockExample = parseFailureResult ∧
    parseFailureResult.decision = "SKIP" := by
  refine ⟨by decide, by decide, by decide, by decide, rfl⟩

/-- A prose-wrapped payload with no decision field. -/
def noDecisionExample : List Char :=
  "Sure! \x7b\"reason\":\"ok\"\x7d".toList

/-- A prose-wrapped payload whose decision is not a valid tier string. -/
def badDecisionExample : List Char :=
  "Sure! \x7b\"decision\":\"TIER_9\",\"reason\":\"ok\"\x7d".toList

/-- A prose-wrapped payload whose decision is mistyped (a number). -/
def numDecisionExample : List Char :=
  "Sure! \x7b\"decision\":3,\"reason\":\"ok\"\x7d".toList

/-- C3 amended: `parseResult` extracts the span from the FIRST opening
brace to the LAST closing brace (not the first balanced block) and
parses it as the verdict payload.  For a response that wraps a single
well-formed payload in prose (no brace in the leading prose, no closing
brace in the trailing prose), parsing succeeds with the payload's
decision — in particular the spec's prose-wrapped `TIER_1` example
succeeds.  When no brace span exists, or the payload's decision field
is missing, mistyped, or not a valid tier (`decisionOf` yields
nothing), the result is the SKIP parse-failure verdict — shown both in
general and on concrete missing-, invalid- and number-decision
responses. -/
theorem parse_greedy_span (pre block post : List Char)
    (obj : List (String × JVal)) (d : String)
    (hpre : ∀ c ∈ pre, c ≠ lbrace)
    (hpost : ∀ c ∈ post, c ≠ rbrace)
    (hhead : block.head? = some lbrace)
    (hlast : block.getLast? = some rbrace)
    (hparse : parseObject block = some obj)
    (hdec : decisionOf obj = some d) :
    parseResult (pre ++ block ++ post) =
      { decision := d,
        reason := jsOrField (obj.lookup "reason") (.str "No reason provided"),
        roleDetected := jsOrField (obj.lookup "role_detected") (.str ""),
        clientTypeInferred :=
          jsOrField (obj.lookup "client_type_inferred") (.str ""),
        mindsetSignals :=
          jsOrField (obj.lookup "mindset_signals") (.str "") } ∧
    (∀ r, extractJsonSpan r = none → parseResult r = parseFailureResult) ∧
    (∀ pre2 block2 post2 (obj2 : List (String × JVal)),
      (∀ c ∈ pre2, c ≠ lbrace) → (∀ c ∈ post2, c ≠ rbrace) →
      block2.head? = some lbrace → block2.getLast? = some rbrace →
      parseObject block2 = some obj2 → decisionOf obj2 = none →
      parseResult (pre2 ++ block2 ++ post2) = parseFailureResult) ∧
    parseResult proseExample =
      { decision := "TIER_1", reason := .str "ok", roleDetected := .str "",
        clientTypeInferred := .str "", mindsetSignals := .str "" } ∧
    parseResult noDecisionExample = parseFailureResult ∧
    parseResult badDecisionExample = parseFailureResult ∧
    parseResult numDecisionExample = parseFailureResult := by
  refine ⟨?_, ?_, ?_, by decide, by decide, by decide, by decide⟩
  · have hspan := extractJsonSpan_of_shape pre block post hpre hpost
      hhead hlast
    simp only [parseResult, hspan, hparse, hdec]
  · intro r hr
    simp only [parseResult, hr]
  · intro pre2 block2 post2 obj2 hpre2 hpost2 hhead2 hlast2 hparse2 hdec2
    have hspan2 := extractJsonSpan_of_shape pre2 block2 post2 hpre2 hpost2
      hhead2 hlast2
    simp only [parseResult, hspan2, hparse2, hdec2]

theorem parse_greedy_span_witness :
    parseResult ("Sure! Here you go: ".toList ++
        "\x7b\"decision\":\"TIER_1\",\"reason\":\"ok\"\x7d".toList ++
        [] : List Char) =
      { decision := "TIER_1",
        reason := jsOrField
          ([("decision", JVal.str "TIER_1"),
            ("reason", JVal.str "ok")].lookup "reason")
          (.str "No reason provided"),
        roleDetected := jsOrField
          ([("decision", JVal.str "TIER_1"),
            ("reason", JVal.str "ok")].lookup "role_detected") (.str ""),
        clientTypeInferred := jsOrField
          ([("decision", JVal.str "TIER_1"),
            ("reason", JVal.str "ok")].lookup "client_type_inferred")
          (.str ""),
        mindsetSignals := jsOrField
          ([("decision", JVal.str "TIER_1"),
            ("reason", JVal.str "ok")].lookup "mindset_signals")
          (.str "") } ∧
    (∀ r, extractJsonSpan r = none → parseResult r = parseFailureResult) ∧
    (∀ pre2 block2 post2 (obj2 : List (String × JVal)),
      (∀ c ∈ pre2, c ≠ lbrace) → (∀ c ∈ post2, c ≠ rbrace) →
      block2.head? = some lbrace → block2.getLast? = some rbrace →
      parseObject block2 = some obj2 → decisionOf obj2 = none →
      parseResult (pre2 ++ block2 ++ post2) = parseFailureResult) ∧
    parseResult proseExample =
      { decision := "TIER_1", reason := .str "ok", roleDetected := .str "",
        clientTypeInferred := .str "", mindsetSignals := .str "" } ∧
    parseResult noDecisionExample = parseFailureResult ∧
    parseResult badDecisionExample = parseFailureResult ∧
    parseResult numDecisionExample = parseFailureResult :=
  parse_greedy_span "Sure! Here you go: ".toList
    "\x7b\"decision\":\"TIER_1\",\"reason\":\"ok\"\x7d".toList []
    [("decision", JVal.str "TIER_1"), ("reason", JVal.str "ok")] "TIER_1"
    (by decide) (by decide) (by decide) (by decide) (by decide) (by decide)

/-! ### C4: classification errors absorbed, never raised -/

/-- The outcome of the classifier exchange in `qualifyProfile`. -/
inductive LLMOutcome
  | httpError (status : Nat) (statusText : String)
  | networkError (message : String)
  | ok (response : List Char)

/-- The conservative SKIP verdict with the given reasoning. -/
def skipResult (reason : String) : QualificationResult :=
  ⟨"SKIP", .str reason, .str "", .str "", .str ""⟩

/-- The body of the `try` block in `qualifyProfile`: a non-ok HTTP
status throws `LLM Router error: <status> <statusText>`, a network
error throws its message, and a received response is parsed (parsing
itself absorbs its own failures inside `parseResult`). -/
def qualifyAttempt : LLMOutcome → Except String QualificationResult
  | .httpError status statusText =>
      .error ("LLM Router error: " ++ toString status ++ " " ++ statusText)
  | .networkError message => .error message
  | .ok response => .ok (parseResult response)

/-- Embeds `qualifyProfile` (webhook qualification service): the prompt
file is loaded outside the `try` (a missing prompt file does raise);
every classifier error inside the `try` is caught and converted into a
SKIP verdict carrying the error text. -/
def qualifyProfile (promptLoaded : Bool) (outcome : LLMOutcome) :
    Except String QualificationResult :=
  if promptLoaded then
    match qualifyAttempt outcome with
    | .ok r => .ok r
    | .error m => .ok (skipResult ("Error during qualification: " ++ m))
  else .error "Could not load qualification prompt file"

/-- C4: once the prompt is loaded, `qualifyProfile` raises no exception
for any classifier outcome: an HTTP or network error yields a SKIP
verdict whose reasoning embeds the error text, an unparseable response
yields the SKIP parse-failure verdict, and any response is answered by
`parseResult` (itself total) — the pipeline always makes forward
progress. -/
theorem classify_absorbs_errors (promptLoaded : Bool)
    (outcome : LLMOutcome) (hp : promptLoaded = true) :
    (∃ r, qualifyProfile promptLoaded outcome = .ok r) ∧
    (∀ status statusText, outcome = .httpError status statusText →
      qualifyProfile promptLoaded outcome = .ok (skipResult
        ("Error during qualification: " ++
          ("LLM Router error: " ++ toString status ++ " " ++ statusText)))) ∧
    (∀ message, outcome = .networkError message →
      qualifyProfile promptLoaded outcome = .ok
        (skipResult ("Error during qualification: " ++ message))) ∧
    (∀ response, outcome = .ok response →
      qualifyProfile promptLoaded outcome = .ok (parseResult response)) ∧
    (∀ response, outcome = .ok response → extractJsonSpan response = none →
      qualifyProfile promptLoaded outcome = .ok parseFailureResult) ∧
    (∀ m, (skipResult m).decision = "SKIP" ∧ (skipResult m).reason = .str m) ∧
    parseFailureResult.decision = "SKIP" := by
  subst hp
  refine ⟨?_, ?_, ?_, ?_, ?_, fun m => ⟨rfl, rfl⟩, rfl⟩
  · cases outcome with
    | httpError status statusText => exact ⟨_, rfl⟩
    | networkError message => exact ⟨_, rfl⟩
    | ok response => exact ⟨_, rfl⟩
  · intro status statusText h
    subst h
    rfl
  · intro message h
    subst h
    rfl
  · intro response h
    subst h
    rfl
  · intro response h hspan
    subst h
    show Except.ok (parseResult response) = .ok parseFailureResult
    rw [parseResult, hspan]

theorem classify_absorbs_errors_witness :
    qualifyProfile true (.httpError 500 "Internal Server Error") =
      .ok (skipResult ("Error during qualification: " ++
        ("LLM Router error: " ++ toString 500 ++ " " ++
          "Internal Server Error"))) :=
  (classify_absorbs_errors true (.httpError 500 "Internal Server Error")
    rfl).2.1 500 "Internal Server Error" rfl

end Outreach
